import Mathlib

/-!
Verification of the MCP-Server-with-NextJS dynamic tool registry and dispatch
engine, embedded shallowly from the TypeScript source:

  * `src/app/api/[transport]/route.ts` — schema compiler (`parameterToZodSchema`),
    registry cache (`loadCustomTools` over `toolsCache`), custom tool registration
    (`registerCustomTools` plus the handler setup in `createMcpHandler`),
    parameter routing and request assembly (`executeApiTool`), and the sandboxed
    script runner envelope logic (`executeCustomLogic`);
  * `src/lib/database.ts` — backend selection (`isDatabaseEnabled`, `getPool`,
    `initializeDatabase`).

JavaScript values are modelled by the inductive `JsValue`; JS numbers are
modelled as integers (no claim examined here depends on fractional values).
Stateful code (the module-level `toolsCache`) is modelled by explicit state
passing; fallible code returns `Except`; I/O performed by collaborators (the
Postgres store, the outbound `fetch`, the user script evaluation) is modelled
by passing the collaborator's outcome as an explicit argument.
-/

namespace McpServer

/-! ## JavaScript values -/

mutual

/-- A JavaScript runtime value, as far as the routed code inspects one:
`undefined`, `null`, strings, numbers (modelled as integers), booleans,
objects (ordered field lists) and arrays. -/
inductive JsValue where
  | undefined : JsValue
  | nullv : JsValue
  | str : String → JsValue
  | num : Int → JsValue
  | boolv : Bool → JsValue
  | obj : JsFields → JsValue
  | arr : JsElems → JsValue

/-- Ordered field list of a JavaScript object. -/
inductive JsFields where
  | nil : JsFields
  | cons : String → JsValue → JsFields → JsFields

/-- element list of a JavaScript array. -/
inductive JsElems where
  | nil : JsElems
  | cons : JsValue → JsElems → JsElems

end

/-- Property lookup on a JavaScript object's field list (first match). -/
def fieldsLookup : JsFields → String → Option JsValue
  | .nil, _ => none
  | .cons k v rest, key => if k = key then some v else fieldsLookup rest key

/-- Builds a JavaScript object from an association list. -/
def fieldsOfList : List (String × JsValue) → JsFields
  | [] => .nil
  | (k, v) :: rest => .cons k v (fieldsOfList rest)

/-- The values admitted by `isValidParamValue` in `executeApiTool`:
`string | number | boolean`. -/
inductive ParamValue where
  | str : String → ParamValue
  | num : Int → ParamValue
  | boolv : Bool → ParamValue
deriving DecidableEq, Repr

/-- The `isValidParamValue` type guard of `executeApiTool`
(route.ts lines 231–234): keeps strings, numbers and booleans, narrowing the
`unknown` value to `string | number | boolean`; every other value (undefined,
null, objects, arrays) is rejected. -/
def asParamValue : JsValue → Option ParamValue
  | .str s => some (.str s)
  | .num n => some (.num n)
  | .boolv b => some (.boolv b)
  | _ => none

/-- Re-embeds a narrowed parameter value into `JsValue`. -/
def ParamValue.toJs : ParamValue → JsValue
  | .str s => .str s
  | .num n => .num n
  | .boolv b => .boolv b

/-! ## Data model (route.ts lines 6–37, database.ts lines 3–33) -/

/-- `ParameterSchema` of route.ts: one declared parameter. The `default`
field may hold a string, number or boolean. -/
structure ParameterSchema where
  type : String
  description : Option String := none
  enum : Option (List String) := none
  minimum : Option Int := none
  maximum : Option Int := none
  default : Option ParamValue := none
deriving DecidableEq, Repr

/-- The shape shared by `inputSchema` and `querySchema` in `CustomTool`:
a `type` tag plus optional `properties` and `required` lists. Properties are
kept as an ordered association list, mirroring JS object key order. -/
structure ToolSchema where
  type : String
  properties : Option (List (String × ParameterSchema)) := none
  required : Option (List String) := none
deriving DecidableEq, Repr

/-- HTTP methods accepted by `apiConfig.method`. -/
inductive HttpMethod where
  | GET | POST | PUT | DELETE | PATCH
deriving DecidableEq, Repr

/-- The `customType` union `'normal' | 'api'`. -/
inductive CustomType where
  | normal | api
deriving DecidableEq, Repr

/-- The `apiConfig` payload of a custom API tool. -/
structure ApiConfig where
  url : String
  method : HttpMethod
  headers : Option (List (String × String)) := none
deriving DecidableEq, Repr

/-- `CustomTool` of route.ts lines 16–37. -/
structure CustomTool where
  name : String
  description : Option String := none
  inputSchema : Option ToolSchema := none
  querySchema : Option ToolSchema := none
  isCustom : Option Bool := none
  customType : Option CustomType := none
  apiConfig : Option ApiConfig := none
  customLogic : Option String := none
deriving DecidableEq, Repr

/-! ## Schema Compiler (route.ts lines 53–98, `parameterToZodSchema`) -/

/-- The zod schema values that `parameterToZodSchema` can build:
`z.string()`, `z.enum(values)`, `z.number()` with optional `.int()`, `.min()`
and `.max()` refinements, `z.boolean()`, plus the `.describe()` and
`.default()` wrappers applied at the end of the function. -/
inductive ZodType where
  | zstring : ZodType
  | zenum : List String → ZodType
  | znumber : Bool → Option Int → Option Int → ZodType
  | zboolean : ZodType
  | zdescribe : ZodType → String → ZodType
  | zdefault : ZodType → ParamValue → ZodType
deriving DecidableEq, Repr

/-- The validation failures distinguished by the spec's taxonomy for a single
parameter: type mismatch, enum mismatch, out-of-range. -/
inductive ValidationError where
  | typeMismatch : ValidationError
  | enumMismatch : ValidationError
  | outOfRange : ValidationError
deriving DecidableEq, Repr

/-- `parameterToZodSchema` (route.ts lines 54–98), translated case for case:
the `switch` on `param.type` picks the base schema — for `'string'` an enum
replaces the plain string schema when `param.enum` is set, for `'number'` and
`'integer'` the `minimum`/`maximum` refinements are chained on when defined,
and any unrecognised type falls through to `z.string()` — then the
`.describe()` and `.default()` wrappers are applied when those fields are set. -/
def parameterToZodSchema (param : ParameterSchema) : ZodType :=
  let base : ZodType :=
    match param.type with
    | "string" =>
      match param.enum with
      | some values => .zenum values
      | none => .zstring
    | "number" => .znumber false param.minimum param.maximum
    | "integer" => .znumber true param.minimum param.maximum
    | "boolean" => .zboolean
    | _ => .zstring
  let described : ZodType :=
    match param.description with
    | some d => .zdescribe base d
    | none => base
  match param.default with
  | some dv => .zdefault described dv
  | none => described

/-- Runtime semantics of the zod schemas built above, i.e. what `parse` does:
strings accept exactly strings; enums accept exactly the member strings
(case-sensitive string equality) and reject other strings with an
enum-mismatch error; numbers accept numbers within the declared bounds
(the `.int()` refinement is vacuous in this model because JS numbers are
modelled as integers); booleans accept exactly booleans; `.describe()` is
transparent to parsing; `.default()` substitutes the declared default for an
`undefined` input and validates it, and is transparent otherwise. -/
def zodParse : ZodType → JsValue → Except ValidationError JsValue
  | .zstring, .str s => .ok (.str s)
  | .zstring, _ => .error .typeMismatch
  | .zenum values, .str s =>
    if values.contains s then .ok (.str s) else .error .enumMismatch
  | .zenum _, _ => .error .typeMismatch
  | .znumber _ lo hi, .num n =>
    if lo.all (fun a => decide (a ≤ n)) then
      if hi.all (fun b => decide (n ≤ b)) then
        .ok (.num n)
      else .error .outOfRange
    else .error .outOfRange
  | .znumber _ _ _, _ => .error .typeMismatch
  | .zboolean, .boolv b => .ok (.boolv b)
  | .zboolean, _ => .error .typeMismatch
  | .zdescribe inner _, v => zodParse inner v
  | .zdefault inner dv, .undefined => zodParse inner dv.toJs
  | .zdefault inner _, v => zodParse inner v

/-! ## Backend selection (database.ts lines 35–89) -/

/-- The configuration surface read by database.ts: the `USEDB` toggle, the
`DATABASE_URL` connection string and `NODE_ENV`, each possibly unset. -/
structure Env where
  USEDB : Option String := none
  DATABASE_URL : Option String := none
  NODE_ENV : Option String := none
deriving DecidableEq, Repr

/-- JavaScript truthiness of an optional string environment variable:
`undefined` and the empty string are falsy, every other string is truthy. -/
def truthyEnv : Option String → Bool
  | some s => s ≠ ""
  | none => false

/-- `isDatabaseEnabled` (database.ts lines 37–39):
`process.env.USEDB === 'true' && !!process.env.DATABASE_URL`. -/
def isDatabaseEnabled (env : Env) : Bool :=
  env.USEDB == some "true" && truthyEnv env.DATABASE_URL

/-- `getPool` (database.ts lines 41–53), modelled without the pool memo: it
throws `DATABASE_URL environment variable is not set` when the connection
string is falsy (unset or empty), and otherwise constructs the pool. -/
def getPool (env : Env) : Except String Unit :=
  if truthyEnv env.DATABASE_URL = false then
    .error "DATABASE_URL environment variable is not set"
  else
    .ok ()

/-- `initializeDatabase` (database.ts lines 55–89): returns immediately —
with no error — when `isDatabaseEnabled()` is false; otherwise it obtains the
pool and runs the two DDL statements, whose outcome is supplied as the
`ddlOutcome` argument (`throw error` on failure re-raises it). -/
def initializeDatabase (env : Env) (ddlOutcome : Except String Unit) :
    Except String Unit :=
  if isDatabaseEnabled env = false then
    .ok ()
  else
    (getPool env).bind (fun _ => ddlOutcome)

/-! ## Registry cache (route.ts lines 39–51 and 334–365) -/

/-- The module-level `toolsCache` of route.ts lines 40–48: the cached
descriptor snapshot, the timestamp of the last successful refresh, and the
set of names already registered on the server (modelled as a list). -/
structure ToolsCache where
  tools : List CustomTool
  timestamp : Nat
  registered : List String
deriving DecidableEq, Repr

/-- `CACHE_DURATION` (route.ts line 51): 5 seconds, in milliseconds. -/
def CACHE_DURATION : Nat := 5 * 1000

/-- `loadCustomTools` (route.ts lines 335–365), as a function of the current
cache state, the current clock value `now` (`Date.now()`), the `forceReload`
flag, the backend toggle, and the outcome `storeList` of the one Store call
`getToolsFromDatabase()` it may perform. Returns the tool list handed to the
caller, the updated cache state, and the number of Store list calls performed
(0 or 1), so that theorems can count Store traffic. A fresh cache (positive
timestamp, age strictly below `CACHE_DURATION`) short-circuits unless
`forceReload` is set; when the database is disabled the tool list is empty;
when the Store call throws, the `catch` block returns the previously cached
tools and the cache state is left untouched. -/
def loadCustomTools (cache : ToolsCache) (now : Nat) (forceReload : Bool)
    (dbEnabled : Bool) (storeList : Except String (List CustomTool)) :
    List CustomTool × ToolsCache × Nat :=
  if forceReload = false ∧ cache.timestamp > 0 ∧
      now - cache.timestamp < CACHE_DURATION then
    (cache.tools, cache, 0)
  else if dbEnabled then
    match storeList with
    | .ok tools => (tools, ⟨tools, now, []⟩, 1)
    | .error _ => (cache.tools, cache, 1)
  else
    ([], ⟨[], now, []⟩, 0)

/-! ## Parameter Router and request assembly (route.ts lines 212–278) -/

/-- `tool.querySchema?.properties ? Object.keys(...) : []` — the declared
key list of an optional schema (route.ts lines 227–229). -/
def schemaKeys : Option ToolSchema → List String
  | some ts =>
    match ts.properties with
    | some props => props.map Prod.fst
    | none => []
  | none => []

/-- True exactly on the empty-string parameter value, mirroring the
`value !== ''` guard of route.ts line 238. -/
def isEmptyStr : ParamValue → Bool
  | .str "" => true
  | _ => false

/-- The parameter distribution loop of `executeApiTool` (route.ts lines
236–253): each argument whose value is defined, non-empty-string and a valid
parameter value (string/number/boolean) is placed into `queryParams` when its
key is declared in `querySchema`, else into `bodyParams` when declared in
`inputSchema`, else by the legacy fallback into `queryParams` for GET and into
`bodyParams` for any other method; every other argument is skipped. -/
def distributeParams (queryKeys bodyKeys : List String) (method : HttpMethod) :
    List (String × JsValue) →
    List (String × ParamValue) × List (String × ParamValue)
  | [] => ([], [])
  | kv :: rest =>
    let acc := distributeParams queryKeys bodyKeys method rest
    match asParamValue kv.2 with
    | some pv =>
      if isEmptyStr pv then acc
      else if queryKeys.contains kv.1 then ((kv.1, pv) :: acc.1, acc.2)
      else if bodyKeys.contains kv.1 then (acc.1, (kv.1, pv) :: acc.2)
      else if method = .GET then ((kv.1, pv) :: acc.1, acc.2)
      else (acc.1, (kv.1, pv) :: acc.2)
    | none => acc

/-- The bucket chosen for a key by the classification rule of the
distribution loop: `queryParams` when the key is declared in `querySchema`,
else `bodyParams` when declared in `inputSchema`, else the legacy fallback
(`queryParams` for GET, `bodyParams` otherwise). `true` means `queryParams`.
The choice depends only on the key, never on the value. -/
def goesToQuery (queryKeys bodyKeys : List String) (method : HttpMethod)
    (key : String) : Bool :=
  if queryKeys.contains key then true
  else if bodyKeys.contains key then false
  else decide (method = .GET)

/-- The value admitted into a bucket by the guard of route.ts line 238:
defined, not the empty string, and a valid parameter value. -/
def routedValue (v : JsValue) : Option ParamValue :=
  match asParamValue v with
  | some pv => if isEmptyStr pv then none else some pv
  | none => none

/-- The contribution of one argument entry to the `queryParams` bucket. -/
def routeQueryEntry (queryKeys bodyKeys : List String) (method : HttpMethod)
    (kv : String × JsValue) : Option (String × ParamValue) :=
  (routedValue kv.2).bind
    (fun pv =>
      if goesToQuery queryKeys bodyKeys method kv.1 then some (kv.1, pv)
      else none)

/-- The contribution of one argument entry to the `bodyParams` bucket. -/
def routeBodyEntry (queryKeys bodyKeys : List String) (method : HttpMethod)
    (kv : String × JsValue) : Option (String × ParamValue) :=
  (routedValue kv.2).bind
    (fun pv =>
      if goesToQuery queryKeys bodyKeys method kv.1 then none
      else some (kv.1, pv))

/-- `String(value)` on a narrowed parameter value. -/
def ParamValue.display : ParamValue → String
  | .str s => s
  | .num n => toString n
  | .boolv b => cond b "true" "false"

/-- JSON escaping of one character, covering the escapes relevant here. -/
def jsonEscapeChar (c : Char) : String :=
  if c = '"' then "\\\""
  else if c = '\\' then "\\\\"
  else if c = '\n' then "\\n"
  else if c = '\r' then "\\r"
  else if c = '\t' then "\\t"
  else String.singleton c

/-- A JSON string literal. -/
def jsonQuote (s : String) : String :=
  "\"" ++ String.join (s.data.map jsonEscapeChar) ++ "\""

/-- The JSON encoding of one narrowed parameter value. -/
def ParamValue.toJson : ParamValue → String
  | .str s => jsonQuote s
  | .num n => toString n
  | .boolv b => cond b "true" "false"

/-- `JSON.stringify(bodyParams)` on the flat
`Record<string, string | number | boolean>` built by the distribution loop. -/
def jsonStringifyFlat (entries : List (String × ParamValue)) : String :=
  "\x7b" ++
    String.intercalate ","
      (entries.map (fun kv => jsonQuote kv.1 ++ ":" ++ kv.2.toJson)) ++
  "\x7d"

/-- Sets a key in an association list the way a JavaScript property
assignment does: the first existing entry is replaced in place, otherwise the
entry is appended. -/
def assocSet {β : Type} : List (String × β) → String → β → List (String × β)
  | [], key, v => [(key, v)]
  | (k, w) :: rest, key, v =>
    if k = key then (k, v) :: rest else (k, w) :: assocSet rest key v

/-- Minimal percent-style encoding used for the query string; the claims
examined here depend only on which keys reach the query string, not on the
byte-level encoding, so this encoder keeps unreserved characters and spaces
as `+` and leaves everything else unchanged. -/
def formUrlEncode (s : String) : String :=
  String.join (s.data.map (fun c => if c = ' ' then "+" else String.singleton c))

/-- `URLSearchParams` assembly of route.ts lines 260–266: each query
parameter is written with `set` (replace, never append) and the result is
serialised as `k=v` pairs joined by `&`. -/
def buildQueryString (queryParams : List (String × ParamValue)) : String :=
  let collapsed :=
    queryParams.foldl (fun acc kv => assocSet acc kv.1 kv.2.display) []
  String.intercalate "&"
    (collapsed.map (fun kv => formUrlEncode kv.1 ++ "=" ++ formUrlEncode kv.2))

/-- `url.split('?')[0]` (route.ts line 256): the part of the URL before the
first `?`, i.e. the URL with any existing query string discarded. -/
def urlBeforeQuery (url : String) : String :=
  ⟨url.data.takeWhile (fun c => c ≠ '?')⟩

/-- The outbound request assembled by `executeApiTool` before `fetch`. -/
structure ApiRequest where
  url : String
  method : HttpMethod
  headers : List (String × String)
  body : Option String
deriving DecidableEq, Repr

/-- The request-assembly half of `executeApiTool` (route.ts lines 213–278):
fails when `apiConfig` is missing; distributes the arguments into query and
body buckets; rebuilds the URL from the part of `url` before any `?` plus the
query bucket; and for a non-GET method with a non-empty body bucket sets the
body to `JSON.stringify(bodyParams)` and assigns
`headers['Content-Type'] = 'application/json'` (a plain property assignment,
which overwrites any existing `Content-Type` entry). -/
def buildApiRequest (tool : CustomTool) (params : List (String × JsValue)) :
    Except String ApiRequest :=
  match tool.apiConfig with
  | none => .error "API configuration missing"
  | some cfg =>
    let headers := cfg.headers.getD []
    let queryKeys := schemaKeys tool.querySchema
    let bodyKeys := schemaKeys tool.inputSchema
    let buckets := distributeParams queryKeys bodyKeys cfg.method params
    let baseUrl := urlBeforeQuery cfg.url
    let finalUrl :=
      if buckets.1.length > 0 then baseUrl ++ "?" ++ buildQueryString buckets.1
      else baseUrl
    if cfg.method ≠ .GET ∧ buckets.2.length > 0 then
      .ok ⟨finalUrl, cfg.method,
           assocSet headers "Content-Type" "application/json",
           some (jsonStringifyFlat buckets.2)⟩
    else
      .ok ⟨finalUrl, cfg.method, headers, none⟩

/-- Header list of an assembled request (empty when assembly failed). -/
def requestHeaders : Except String ApiRequest → List (String × String)
  | .ok r => r.headers
  | .error _ => []

/-- Body of an assembled request (`none` when assembly failed). -/
def requestBody : Except String ApiRequest → Option String
  | .ok r => r.body
  | .error _ => none

/-! ## Sandboxed Script Runner (route.ts lines 120–210, `executeCustomLogic`) -/

/-- Repeats `n` spaces, for the two-space indentation of
`JSON.stringify(value, null, 2)`. -/
def spaces (n : Nat) : String :=
  String.join (List.replicate n " ")

mutual

/-- `JSON.stringify(value, null, 2)` over a `JsValue`, used only inside the
diagnostic texts the runner embeds in its envelopes. -/
def jsonPretty (indent : Nat) : JsValue → String
  | .undefined => "undefined"
  | .nullv => "null"
  | .str s => jsonQuote s
  | .num n => toString n
  | .boolv b => cond b "true" "false"
  | .obj .nil => "\x7b\x7d"
  | .obj fs =>
    "\x7b\n" ++ jsonPrettyFields (indent + 2) fs ++ "\n" ++ spaces indent ++ "\x7d"
  | .arr .nil => "[]"
  | .arr es =>
    "[\n" ++ jsonPrettyElems (indent + 2) es ++ "\n" ++ spaces indent ++ "]"

/-- Field lines of a pretty-printed object, comma-and-newline separated. -/
def jsonPrettyFields (indent : Nat) : JsFields → String
  | .nil => ""
  | .cons k v .nil => spaces indent ++ jsonQuote k ++ ": " ++ jsonPretty indent v
  | .cons k v rest =>
    spaces indent ++ jsonQuote k ++ ": " ++ jsonPretty indent v ++ ",\n" ++
      jsonPrettyFields indent rest

/-- Element lines of a pretty-printed array, comma-and-newline separated. -/
def jsonPrettyElems (indent : Nat) : JsElems → String
  | .nil => ""
  | .cons v .nil => spaces indent ++ jsonPretty indent v
  | .cons v rest =>
    spaces indent ++ jsonPretty indent v ++ ",\n" ++ jsonPrettyElems indent rest

end

mutual

/-- `String(result)` for the final fallback branch of the runner. -/
def jsDisplay : JsValue → String
  | .undefined => "undefined"
  | .nullv => "null"
  | .str s => s
  | .num n => toString n
  | .boolv b => cond b "true" "false"
  | .obj _ => "[object Object]"
  | .arr .nil => ""
  | .arr (.cons v rest) => jsDisplay v ++ jsDisplayElems rest

/-- Comma-joined tail of `String(array)`. -/
def jsDisplayElems : JsElems → String
  | .nil => ""
  | .cons v rest => "," ++ jsDisplay v ++ jsDisplayElems rest

end

/-- JavaScript `String.prototype.trim`: strips leading and trailing
whitespace. Implemented over the character list so that it evaluates inside
the kernel. -/
def jsTrim (s : String) : String :=
  ⟨((s.data.dropWhile Char.isWhitespace).reverse.dropWhile
      Char.isWhitespace).reverse⟩

/-- Outcome of evaluating the user script: either it throws — `message` is
`error.message` for an `Error`, and the literal `Unknown error` otherwise,
matching the `error instanceof Error` test of route.ts line 206 — or it
returns a JavaScript value. Both `new Function` construction failures and
rejections of the awaited call land in the `throws` case. -/
inductive ScriptOutcome where
  | throws : String → ScriptOutcome
  | returns : JsValue → ScriptOutcome

/-- The single-text-block response envelope `{content: [{type: "text", text}]}`
that the runner builds, as the plain JavaScript object the code returns. -/
def mcpTextEnvelope (text : String) : JsValue :=
  .obj (.cons "content"
    (.arr (.cons
      (.obj (.cons "type" (.str "text") (.cons "text" (.str text) .nil)))
      .nil))
    .nil)

/-- `result.content && Array.isArray(result.content)` (route.ts line 183):
the returned object is already in MCP format. An empty `content` array is a
truthy object, so the test reduces to the `Array.isArray` check. -/
def hasContentArray : JsValue → Bool
  | .obj fs =>
    match fieldsLookup fs "content" with
    | some (.arr _) => true
    | _ => false
  | _ => false

/-- `executeCustomLogic` (route.ts lines 121–210). When the tool has no
script source, or its source trims to the empty string (JS also treats the
empty string itself as falsy), the runner returns the no-logic diagnostic
envelope. Otherwise the script is evaluated — its outcome is the explicit
`outcome` argument, since scripts run outside this model — and the result is
normalised: a thrown exception is caught and converted into the error text
envelope (note: with no `isError` flag); a string becomes a text envelope; an
object or array already carrying a `content` array is passed through
unchanged; any other object or array is pretty-printed into a result
envelope; and every remaining value is `String(...)`-formatted into a result
envelope. The function is total: no outcome propagates an exception. -/
def executeCustomLogic (tool : CustomTool) (params : List (String × JsValue))
    (outcome : ScriptOutcome) : JsValue :=
  let noLogic :=
    mcpTextEnvelope
      ("🛠️ Custom Tool \"" ++ tool.name ++ "\" executed with parameters:\n" ++
       jsonPretty 0 (.obj (fieldsOfList params)) ++
       "\n\n⚠️ No custom logic defined for this tool.")
  match tool.customLogic with
  | none => noLogic
  | some source =>
    if jsTrim source = "" then noLogic
    else
      match outcome with
      | .throws message =>
        mcpTextEnvelope
          ("❌ Error executing custom logic: " ++ message ++
           "\n\nPlease check your JavaScript code for syntax errors.")
      | .returns result =>
        match result with
        | .str s => mcpTextEnvelope s
        | .obj _ =>
          if hasContentArray result then result
          else
            mcpTextEnvelope
              ("🛠️ " ++ tool.name ++ " Result:\n" ++ jsonPretty 0 result)
        | .arr _ =>
          if hasContentArray result then result
          else
            mcpTextEnvelope
              ("🛠️ " ++ tool.name ++ " Result:\n" ++ jsonPretty 0 result)
        | other =>
          mcpTextEnvelope ("🛠️ " ++ tool.name ++ " Result: " ++ jsDisplay other)

/-- The `isError` property of a returned envelope object, if any. -/
def isErrorFlag : JsValue → Option JsValue
  | .obj fs => fieldsLookup fs "isError"
  | _ => none

/-- The text of the first content block of an envelope object, if any. -/
def firstContentText : JsValue → Option String
  | .obj fs =>
    match fieldsLookup fs "content" with
    | some (.arr (.cons (.obj block) _)) =>
      match fieldsLookup block "text" with
      | some (.str t) => some t
      | _ => none
    | _ => none
  | _ => none

/-! ## Tool registration order (route.ts lines 367–456 and 458–1018) -/

/-- Whether a registry entry was produced by `registerCustomTools` or by one
of the fixed `server.tool` calls in the `createMcpHandler` callback. -/
inductive RegSource where
  | custom | builtin
deriving DecidableEq, Repr

/-- The names of the builtin tools, in the order their `server.tool`
registrations appear in the `createMcpHandler` callback (route.ts lines
428–1018) — all of them after the `await registerCustomTools(server)` call on
line 425. -/
def builtinToolNames : List String :=
  ["refresh_custom_tools", "url_validator", "json_formatter",
   "base64_converter", "hash_generator", "timestamp_converter", "qr_code_data",
   "email_validator", "slug_generator", "random_number", "text_transform",
   "generate_color", "generate_uuid", "generate_password"]

/-- The `customTools.forEach` loop of `registerCustomTools` (route.ts lines
372–415) with `forceReload = false`, acting on the server's registration list
`regs` and the cache's `registered` name set. A tool already in `registered`
is skipped; otherwise `server.tool` is attempted — the MCP server registry
(external `@modelcontextprotocol/sdk`) rejects a duplicate name by throwing
`Tool <name> is already registered` instead of replacing the entry, and that
throw is caught by the per-tool `try`/`catch`, leaving the loop running and
the `registered` set unchanged; on success the tool is registered and its
name added to `registered`. -/
def registerCustomToolsAux :
    List CustomTool → List (String × RegSource) → List String →
    List (String × RegSource) × List String
  | [], regs, registered => (regs, registered)
  | t :: rest, regs, registered =>
    if registered.contains t.name then
      registerCustomToolsAux rest regs registered
    else if (regs.map Prod.fst).contains t.name then
      registerCustomToolsAux rest regs registered
    else
      registerCustomToolsAux rest (regs ++ [(t.name, RegSource.custom)])
        (registered ++ [t.name])

/-- The builtin `server.tool` registrations that follow
`registerCustomTools` in the `createMcpHandler` callback. These calls are not
wrapped in any `try`/`catch`, so the first duplicate-name rejection thrown by
the server registry aborts the remaining registrations; the second component
carries that error when it occurs. -/
def registerBuiltinsAux :
    List String → List (String × RegSource) →
    List (String × RegSource) × Option String
  | [], regs => (regs, none)
  | n :: rest, regs =>
    if (regs.map Prod.fst).contains n then
      (regs, some ("Tool " ++ n ++ " is already registered"))
    else
      registerBuiltinsAux rest (regs ++ [(n, RegSource.builtin)])

/-- The full registration sequence performed when the handler is created
(route.ts lines 422–1033): first `registerCustomTools(server)` over the
loaded custom descriptors, starting from an empty server registry and an
empty `registered` set, then the fixed builtin registrations. Returns the
final registry together with the error aborting the builtin phase, if any. -/
def setupRegistrations (customTools : List CustomTool) :
    List (String × RegSource) × Option String :=
  let custom := registerCustomToolsAux customTools [] []
  registerBuiltinsAux builtinToolNames custom.1

/-- Name resolution against the server registry: registration of a duplicate
name fails rather than replacing the existing entry, so the first successful
registration owns the name; lookup therefore returns the earliest entry. -/
def resolveTool (regs : List (String × RegSource)) (name : String) :
    Option RegSource :=
  regs.lookup name

/-! ## Concrete instances used by witnesses and counterexamples -/

/-- A custom script descriptor whose name collides with the builtin
`url_validator`. -/
def uvTool : CustomTool :=
  { name := "url_validator", customType := some CustomType.normal,
    customLogic := some "return 1" }

/-- The custom script tool of the spec's throwing scenario: its source is
`throw new Error("boom")`. -/
def boomTool : CustomTool :=
  { name := "boom_tool", customType := some CustomType.normal,
    customLogic := some "throw new Error(\"boom\")" }

/-- A string parameter with a two-member enum. -/
def enumParam : ParameterSchema :=
  { type := "string", enum := some ["red", "green"] }

/-- A parameter whose declared type is outside the recognised kinds and which
carries constraints that the fallback ignores. -/
def arrayParam : ParameterSchema :=
  { type := "array", enum := some ["x"], minimum := some 0, maximum := some 5 }

/-- A custom API tool declaring a body parameter `b`, using POST, with a
pre-existing `Content-Type: application/xml` header. -/
def xmlHeaderTool : CustomTool :=
  { name := "xml_poster", customType := some CustomType.api,
    inputSchema := some
      { type := "object", properties := some [("b", { type := "number" })] },
    apiConfig := some
      { url := "https://api.example.com/things", method := HttpMethod.POST,
        headers := some [("Content-Type", "application/xml")] } }

/-- A custom API tool declaring a body parameter `b`, using POST, whose
declared headers do not mention `Content-Type`. -/
def plainHeaderTool : CustomTool :=
  { name := "plain_poster", customType := some CustomType.api,
    inputSchema := some
      { type := "object", properties := some [("b", { type := "number" })] },
    apiConfig := some
      { url := "https://api.example.com/things", method := HttpMethod.POST,
        headers := some [("X-Api-Key", "k")] } }

/-! ## Helper lemmas on association lists -/

theorem lookup_append_left {β : Type} {l₁ l₂ : List (String × β)} {k : String}
    {v : β} (h : l₁.lookup k = some v) : (l₁ ++ l₂).lookup k = some v := by
  induction l₁ with
  | nil => simp [List.lookup] at h
  | cons p t ih =>
    obtain ⟨a, b⟩ := p
    by_cases hk : k = a
    · have hb : (k == a) = true := by simp [hk]
      simp only [List.cons_append, List.lookup, hb] at h ⊢
      exact h
    · have hb : (k == a) = false := by simp [hk]
      simp only [List.cons_append, List.lookup, hb] at h ⊢
      exact ih h

theorem lookup_mem {β : Type} {l : List (String × β)} {k : String} {v : β}
    (h : l.lookup k = some v) : (k, v) ∈ l := by
  induction l with
  | nil => simp [List.lookup] at h
  | cons p t ih =>
    obtain ⟨a, b⟩ := p
    by_cases hk : k = a
    · have hb : (k == a) = true := by simp [hk]
      simp only [List.lookup, hb, Option.some.injEq] at h
      subst hk h
      exact List.mem_cons_self _ _
    · have hb : (k == a) = false := by simp [hk]
      simp only [List.lookup, hb] at h
      exact List.mem_cons_of_mem _ (ih h)

theorem lookup_isSome_of_mem_keys {β : Type} {l : List (String × β)}
    {k : String} (h : k ∈ l.map Prod.fst) : ∃ v, l.lookup k = some v := by
  induction l with
  | nil => simp at h
  | cons p t ih =>
    obtain ⟨a, b⟩ := p
    by_cases hk : k = a
    · have hb : (k == a) = true := by simp [hk]
      exact ⟨b, by simp [List.lookup, hb]⟩
    · have hb : (k == a) = false := by simp [hk]
      simp only [List.map_cons, List.mem_cons] at h
      rcases h with h | h
      · exact absurd h hk
      · rcases ih h with ⟨v, hv⟩
        exact ⟨v, by simp [List.lookup, hb, hv]⟩

theorem lookup_assocSet_self {β : Type} (l : List (String × β)) (key : String)
    (v : β) : (assocSet l key v).lookup key = some v := by
  induction l with
  | nil => simp [assocSet, List.lookup]
  | cons p t ih =>
    obtain ⟨a, b⟩ := p
    by_cases hk : a = key
    · subst hk
      simp [assocSet, List.lookup]
    · have hb : (key == a) = false := by simp [Ne.symm hk]
      simp only [assocSet, if_neg hk, List.lookup, hb]
      exact ih

theorem lookup_assocSet_other {β : Type} (l : List (String × β))
    (key h : String) (v : β) (hne : h ≠ key) :
    (assocSet l key v).lookup h = l.lookup h := by
  induction l with
  | nil =>
    have hb : (h == key) = false := by simp [hne]
    simp [assocSet, List.lookup, hb]
  | cons p t ih =>
    obtain ⟨a, b⟩ := p
    by_cases hk : a = key
    · subst hk
      have hb : (h == a) = false := by simp [hne]
      simp [assocSet, List.lookup, hb]
    · by_cases hh : h = a
      · have hb : (h == a) = true := by simp [hh]
        simp [assocSet, if_neg hk, List.lookup, hb]
      · have hb : (h == a) = false := by simp [hh]
        simp only [assocSet, if_neg hk, List.lookup, hb]
        exact ih

/-! ## Claim C3 -/

/-- C3. If the cached snapshot is stale and the Store list call performed
during the refresh fails, `loadCustomTools` returns the previously cached
snapshot instead of raising the error, and the cache state is unchanged by
the failed refresh (one Store call was made). -/
theorem c3_store_failure_keeps_stale_snapshot (cache : ToolsCache) (now : Nat)
    (e : String)
    (hstale : ¬ (cache.timestamp > 0 ∧ now - cache.timestamp < CACHE_DURATION)) :
    loadCustomTools cache now false true (.error e) = (cache.tools, cache, 1) := by
  simp [loadCustomTools, hstale]

/-- Witness for C3 at a concrete stale cache. -/
theorem c3_store_failure_keeps_stale_snapshot_witness :
    (¬ ((⟨[uvTool], 1000, []⟩ : ToolsCache).timestamp > 0 ∧
        7000 - (⟨[uvTool], 1000, []⟩ : ToolsCache).timestamp < CACHE_DURATION)) ∧
    loadCustomTools ⟨[uvTool], 1000, []⟩ 7000 false true (.error "connection refused") =
      ([uvTool], ⟨[uvTool], 1000, []⟩, 1) :=
  ⟨by decide,
   c3_store_failure_keeps_stale_snapshot ⟨[uvTool], 1000, []⟩ 7000
     "connection refused" (by decide)⟩

/-! ## Claim C4 -/

/-- C4. Two `loadCustomTools` calls without `forceReload`: the first on a
stale cache refreshes it (one Store list call), and the second, made while
the refreshed snapshot's age is still below the 5-second window, performs no
Store call and returns the same snapshot with the cache untouched — exactly
one Store call across the pair, the second call's Store outcome being
irrelevant. -/
theorem c4_second_call_within_window_is_noop (cache : ToolsCache)
    (t₁ t₂ : Nat) (tools₁ : List CustomTool)
    (second : Except String (List CustomTool))
    (hstale : ¬ (cache.timestamp > 0 ∧ t₁ - cache.timestamp < CACHE_DURATION))
    (hpos : 0 < t₁) (hwin : t₂ - t₁ < CACHE_DURATION) :
    loadCustomTools cache t₁ false true (.ok tools₁) = (tools₁, ⟨tools₁, t₁, []⟩, 1) ∧
    loadCustomTools ⟨tools₁, t₁, []⟩ t₂ false true second =
      (tools₁, ⟨tools₁, t₁, []⟩, 0) := by
  constructor
  · simp [loadCustomTools, hstale]
  · simp [loadCustomTools, hpos, hwin]

/-- Witness for C4: first call at t=1000 on an empty cache, second at t=3000,
with the Store down at the second call. -/
theorem c4_second_call_within_window_is_noop_witness :
    (¬ ((⟨[], 0, []⟩ : ToolsCache).timestamp > 0 ∧
        1000 - (⟨[], 0, []⟩ : ToolsCache).timestamp < CACHE_DURATION)) ∧
    0 < 1000 ∧ 3000 - 1000 < CACHE_DURATION ∧
    (loadCustomTools ⟨[], 0, []⟩ 1000 false true (.ok [uvTool]) =
      ([uvTool], ⟨[uvTool], 1000, []⟩, 1) ∧
     loadCustomTools ⟨[uvTool], 1000, []⟩ 3000 false true (.error "down") =
      ([uvTool], ⟨[uvTool], 1000, []⟩, 0)) :=
  ⟨by decide, by decide, by decide,
   c4_second_call_within_window_is_noop ⟨[], 0, []⟩ 1000 3000 [uvTool]
     (.error "down") (by decide) (by decide) (by decide)⟩

/-! ## Claim C7 -/

/-- C7. For a string-kind parameter with an enum, the compiled validator
accepts a value unchanged exactly when it is a member of the enum list
(case-sensitive string membership) and rejects it with an enum-mismatch
error otherwise. -/
theorem c7_enum_membership_decides_acceptance (param : ParameterSchema)
    (values : List String) (s : String) (htype : param.type = "string")
    (henum : param.enum = some values) :
    zodParse (parameterToZodSchema param) (.str s) =
      (if values.contains s then .ok (.str s) else .error .enumMismatch) := by
  rcases param with ⟨ptype, pdesc, penum, pmin, pmax, pdefault⟩
  simp only at htype henum
  subst htype henum
  rcases pdesc with _ | d <;> rcases pdefault with _ | dv <;>
    simp [parameterToZodSchema, zodParse]

/-- Witness for C7: the enum `[red, green]` accepts `red` unchanged and
rejects `blue` with an enum mismatch. -/
theorem c7_enum_membership_decides_acceptance_witness :
    enumParam.type = "string" ∧ enumParam.enum = some ["red", "green"] ∧
    zodParse (parameterToZodSchema enumParam) (.str "red") =
      .ok (.str "red") ∧
    zodParse (parameterToZodSchema enumParam) (.str "blue") =
      .error .enumMismatch := by
  refine ⟨rfl, rfl, ?_, ?_⟩
  · have h := c7_enum_membership_decides_acceptance enumParam ["red", "green"]
      "red" rfl rfl
    simpa using h
  · have h := c7_enum_membership_decides_acceptance enumParam ["red", "green"]
      "blue" rfl rfl
    simpa using h

/-! ## Claim C10 -/

/-- C10. A parameter whose declared type is none of `string`, `number`,
`integer`, `boolean` is not rejected by the compiler: it falls back to a
plain string validator, which accepts any string value unchanged — all
declared constraints (enum, minimum, maximum) are ignored. -/
theorem c10_unknown_kind_falls_back_to_string (param : ParameterSchema)
    (s : String)
    (htype : param.type ∉ (["string", "number", "integer", "boolean"] : List String)) :
    zodParse (parameterToZodSchema param) (.str s) = .ok (.str s) := by
  rcases param with ⟨ptype, pdesc, penum, pmin, pmax, pdefault⟩
  simp only at htype
  simp only [List.mem_cons, List.mem_singleton, not_or] at htype
  obtain ⟨h1, h2, h3, h4, -⟩ := htype
  rcases pdesc with _ | d <;> rcases pdefault with _ | dv <;>
    simp [parameterToZodSchema, zodParse]

/-- Witness for C10: an `array`-typed parameter carrying an enum and bounds
still accepts an arbitrary string. -/
theorem c10_unknown_kind_falls_back_to_string_witness :
    (arrayParam.type ∉ (["string", "number", "integer", "boolean"] : List String)) ∧
    zodParse (parameterToZodSchema arrayParam) (.str "anything") =
      .ok (.str "anything") :=
  ⟨by decide,
   c10_unknown_kind_falls_back_to_string arrayParam "anything" (by decide)⟩

/-! ## Claim C8 -/

/-- C8 counterexample. With the persistent backend selected (`USEDB='true'`)
but no connection string, the claim says a configuration error is signalled
at startup; instead `isDatabaseEnabled()` is false, so `initializeDatabase`
returns without any error and the registry refresh silently proceeds with no
custom tools and zero Store calls — exactly the client-local runtime
behaviour the claim says can never happen. -/
theorem c8_missing_connection_string_is_silent :
    isDatabaseEnabled ⟨some "true", none, none⟩ = false ∧
    initializeDatabase ⟨some "true", none, none⟩ (.ok ()) = .ok () ∧
    loadCustomTools ⟨[], 0, []⟩ 1000 false
      (isDatabaseEnabled ⟨some "true", none, none⟩) (.error "unused") =
      ([], ⟨[], 1000, []⟩, 0) := by
  refine ⟨rfl, rfl, ?_⟩
  simp [loadCustomTools, isDatabaseEnabled, truthyEnv, CACHE_DURATION]

/-- C8 as amended. Selecting the persistent backend without a connection
string (unset or empty `DATABASE_URL`) produces no startup error:
`isDatabaseEnabled` is false, `initializeDatabase` silently returns, and any
stale-cache refresh proceeds with the empty tool list and no Store call —
i.e. the configuration is silently treated like the client-local backend.
`getPool` does hold the missing-connection-string error, but it is never
reached because every caller first checks `isDatabaseEnabled`. -/
theorem c8_amended_silent_fallback (env : Env) (ddl : Except String Unit)
    (cache : ToolsCache) (now : Nat)
    (storeList : Except String (List CustomTool))
    (husedb : env.USEDB = some "true")
    (hurl : truthyEnv env.DATABASE_URL = false)
    (hstale : ¬ (cache.timestamp > 0 ∧ now - cache.timestamp < CACHE_DURATION)) :
    isDatabaseEnabled env = false ∧
    initializeDatabase env ddl = .ok () ∧
    getPool env = .error "DATABASE_URL environment variable is not set" ∧
    loadCustomTools cache now false (isDatabaseEnabled env) storeList =
      ([], ⟨[], now, []⟩, 0) := by
  have hdb : isDatabaseEnabled env = false := by
    simp [isDatabaseEnabled, husedb, hurl]
  refine ⟨hdb, ?_, ?_, ?_⟩
  · simp [initializeDatabase, hdb]
  · simp [getPool, hurl]
  · rw [hdb]
    simp [loadCustomTools, hstale]

/-- Witness for the amended C8. -/
theorem c8_amended_silent_fallback_witness :
    (⟨some "true", none, none⟩ : Env).USEDB = some "true" ∧
    truthyEnv (⟨some "true", none, none⟩ : Env).DATABASE_URL = false ∧
    (¬ ((⟨[], 0, []⟩ : ToolsCache).timestamp > 0 ∧
        1000 - (⟨[], 0, []⟩ : ToolsCache).timestamp < CACHE_DURATION)) ∧
    (isDatabaseEnabled ⟨some "true", none, none⟩ = false ∧
     initializeDatabase ⟨some "true", none, none⟩ (.error "ddl failed") = .ok () ∧
     getPool ⟨some "true", none, none⟩ =
       .error "DATABASE_URL environment variable is not set" ∧
     loadCustomTools ⟨[], 0, []⟩ 1000 false
       (isDatabaseEnabled ⟨some "true", none, none⟩) (.ok [uvTool]) =
       ([], ⟨[], 1000, []⟩, 0)) :=
  ⟨rfl, rfl, by decide,
   c8_amended_silent_fallback ⟨some "true", none, none⟩ (.error "ddl failed")
     ⟨[], 0, []⟩ 1000 (.ok [uvTool]) rfl rfl (by decide)⟩

/-! ## Claim C2 -/

/-- C2 counterexample. The spec's throwing scenario requires the failure
envelope to carry `isError=true`; the envelope built by the `catch` block of
`executeCustomLogic` has no `isError` property at all (its only key is
`content`), so the flag is not `true` for the `boom` script. -/
theorem c2_throwing_script_sets_no_isError_flag :
    isErrorFlag (executeCustomLogic boomTool [] (.throws "boom")) ≠
      some (JsValue.boolv true) := by
  intro h
  rw [show isErrorFlag (executeCustomLogic boomTool [] (.throws "boom")) = none
    from rfl] at h
  exact Option.noConfusion h

/-- C2 as amended. For every custom script tool with a non-empty script
source (under jsTrim) whose evaluation throws, the runner catches the exception and returns
the error text envelope — a single text block whose text contains the
exception message as a substring — and no exception propagates (the runner is
a total function into envelopes). However, no `isError` flag is set: the
envelope has no `isError` property. The runner touches no shared state, so
subsequent dispatches are unaffected. -/
theorem c2_amended_throw_is_caught_without_isError (tool : CustomTool)
    (params : List (String × JsValue)) (message source : String)
    (hsrc : tool.customLogic = some source) (htrim : jsTrim source ≠ "") :
    executeCustomLogic tool params (.throws message) =
      mcpTextEnvelope ("❌ Error executing custom logic: " ++ message ++
        "\n\nPlease check your JavaScript code for syntax errors.") ∧
    (∃ pre post,
      firstContentText (executeCustomLogic tool params (.throws message)) =
        some (pre ++ message ++ post)) ∧
    isErrorFlag (executeCustomLogic tool params (.throws message)) = none := by
  have hrun : executeCustomLogic tool params (.throws message) =
      mcpTextEnvelope ("❌ Error executing custom logic: " ++ message ++
        "\n\nPlease check your JavaScript code for syntax errors.") := by
    simp [executeCustomLogic, hsrc, htrim]
  refine ⟨hrun, ⟨"❌ Error executing custom logic: ",
    "\n\nPlease check your JavaScript code for syntax errors.", ?_⟩, ?_⟩
  · rw [hrun]
    rfl
  · rw [hrun]
    rfl

/-- Witness for the amended C2 at the spec's concrete scenario: the script
source `throw new Error("boom")` throwing `boom`. -/
theorem c2_amended_throw_is_caught_without_isError_witness :
    boomTool.customLogic = some "throw new Error(\"boom\")" ∧
    jsTrim "throw new Error(\"boom\")" ≠ "" ∧
    (executeCustomLogic boomTool [] (.throws "boom") =
      mcpTextEnvelope ("❌ Error executing custom logic: " ++ "boom" ++
        "\n\nPlease check your JavaScript code for syntax errors.") ∧
    (∃ pre post,
      firstContentText (executeCustomLogic boomTool [] (.throws "boom")) =
        some (pre ++ "boom" ++ post)) ∧
    isErrorFlag (executeCustomLogic boomTool [] (.throws "boom")) = none) :=
  ⟨rfl, by decide,
   c2_amended_throw_is_caught_without_isError boomTool [] "boom"
     "throw new Error(\"boom\")" rfl (by decide)⟩

/-! ## Characterisation of the parameter distribution loop -/

theorem routeQueryEntry_key (qk bk : List String) (m : HttpMethod) :
    ∀ a b c, routeQueryEntry qk bk m (a, b) = some c → c.1 = a := by
  intro a b c h
  simp only [routeQueryEntry] at h
  rcases hr : routedValue b with _ | pv
  · rw [hr] at h
    simp at h
  · rw [hr] at h
    by_cases hg : goesToQuery qk bk m a
    · simp [hg] at h
      rw [← h]
    · simp [hg] at h

theorem routeBodyEntry_key (qk bk : List String) (m : HttpMethod) :
    ∀ a b c, routeBodyEntry qk bk m (a, b) = some c → c.1 = a := by
  intro a b c h
  simp only [routeBodyEntry] at h
  rcases hr : routedValue b with _ | pv
  · rw [hr] at h
    simp at h
  · rw [hr] at h
    by_cases hg : goesToQuery qk bk m a
    · simp [hg] at h
    · simp [hg] at h
      rw [← h]

theorem distributeParams_eq (qk bk : List String) (m : HttpMethod)
    (ps : List (String × JsValue)) :
    distributeParams qk bk m ps =
      (ps.filterMap (routeQueryEntry qk bk m),
       ps.filterMap (routeBodyEntry qk bk m)) := by
  induction ps with
  | nil => rfl
  | cons kv rest ih =>
    obtain ⟨k, v⟩ := kv
    simp only [distributeParams, ih, List.filterMap_cons]
    rcases hv : asParamValue v with _ | pv
    · simp [routeQueryEntry, routeBodyEntry, routedValue, hv]
    · by_cases he : isEmptyStr pv
      · simp [routeQueryEntry, routeBodyEntry, routedValue, hv, he]
      · by_cases hq : k ∈ qk
        · simp [routeQueryEntry, routeBodyEntry, routedValue, goesToQuery,
            hv, he, hq]
        · by_cases hb : k ∈ bk
          · simp [routeQueryEntry, routeBodyEntry, routedValue, goesToQuery,
              hv, he, hq, hb]
          · by_cases hm : m = .GET
            · simp [routeQueryEntry, routeBodyEntry, routedValue, goesToQuery,
                hv, he, hq, hb, hm]
            · simp [routeQueryEntry, routeBodyEntry, routedValue, goesToQuery,
                hv, he, hq, hb, hm]

theorem lookup_filterMap_some
    {f : String × JsValue → Option (String × ParamValue)}
    (hkey : ∀ a b c, f (a, b) = some c → c.1 = a)
    {ps : List (String × JsValue)} {k : String} {v : JsValue} {pv : ParamValue}
    (hlp : ps.lookup k = some v) (hf : f (k, v) = some (k, pv)) :
    (ps.filterMap f).lookup k = some pv := by
  induction ps with
  | nil => simp [List.lookup] at hlp
  | cons p t ih =>
    obtain ⟨a, b⟩ := p
    by_cases hk : k = a
    · subst hk
      simp only [List.lookup, beq_self_eq_true, Option.some.injEq] at hlp
      subst hlp
      simp [List.filterMap_cons, hf, List.lookup]
    · have hb : (k == a) = false := by simp [hk]
      simp only [List.lookup, hb] at hlp
      rcases hfa : f (a, b) with _ | c
      · simp only [List.filterMap_cons, hfa]
        exact ih hlp
      · obtain ⟨c1, c2⟩ := c
        have hc : c1 = a := hkey a b (c1, c2) hfa
        subst hc
        simp only [List.filterMap_cons, hfa, List.lookup, hb]
        exact ih hlp

theorem lookup_filterMap_none
    {f : String × JsValue → Option (String × ParamValue)}
    (hkey : ∀ a b c, f (a, b) = some c → c.1 = a)
    {ps : List (String × JsValue)} {k : String}
    (hnone : ∀ kv ∈ ps, kv.1 = k → f kv = none) :
    (ps.filterMap f).lookup k = none := by
  induction ps with
  | nil => simp [List.lookup]
  | cons p t ih =>
    obtain ⟨a, b⟩ := p
    have ih' := ih (fun kv hm hk => hnone kv (List.mem_cons_of_mem _ hm) hk)
    by_cases hk : k = a
    · subst hk
      have : f (k, b) = none := hnone (k, b) (List.mem_cons_self _ _) rfl
      simp only [List.filterMap_cons, this]
      exact ih'
    · rcases hfa : f (a, b) with _ | c
      · simp only [List.filterMap_cons, hfa]
        exact ih'
      · obtain ⟨c1, c2⟩ := c
        have hc : c1 = a := hkey a b (c1, c2) hfa
        have hbeq : (k == c1) = false := by simp [hc, hk]
        simp only [List.filterMap_cons, hfa, List.lookup, hbeq]
        exact ih'

theorem lookup_unique_of_nodup {β : Type} {l : List (String × β)} {k : String}
    {v : β} (hnd : (l.map Prod.fst).Nodup) (hl : l.lookup k = some v) :
    ∀ kv ∈ l, kv.1 = k → kv.2 = v := by
  induction l with
  | nil => simp
  | cons p t ih =>
    obtain ⟨a, b⟩ := p
    simp only [List.map_cons, List.nodup_cons] at hnd
    obtain ⟨hna, hnd'⟩ := hnd
    intro kv hmem hkeq
    rcases List.mem_cons.mp hmem with heq | hmem'
    · subst heq
      have hak : a = k := hkeq
      subst hak
      simp only [List.lookup, beq_self_eq_true, Option.some.injEq] at hl
      exact hl
    · by_cases hk : k = a
      · exfalso
        have hmm : kv.1 ∈ t.map Prod.fst := List.mem_map_of_mem Prod.fst hmem'
        rw [hkeq, hk] at hmm
        exact hna hmm
      · have hb : (k == a) = false := by simp [hk]
        simp only [List.lookup, hb] at hl
        exact ih hnd' hl kv hmem' hkeq

/-! ## Claim C5 -/

/-- C5. Every argument entry with a defined, admissible value lands in
exactly one bucket: in `queryParams` when its key is declared in
`querySchema`; else in `bodyParams` when declared in `inputSchema`; else, by
the legacy fallback, in `queryParams` for GET and in `bodyParams` for every
other method — and in each case the other bucket does not contain the key. -/
theorem c5_each_key_lands_in_exactly_one_bucket (queryKeys bodyKeys : List String)
    (method : HttpMethod) (params : List (String × JsValue)) (k : String)
    (v : JsValue) (pv : ParamValue) (hlookup : params.lookup k = some v)
    (hvalid : asParamValue v = some pv) (hne : isEmptyStr pv = false) :
    if queryKeys.contains k then
      (distributeParams queryKeys bodyKeys method params).1.lookup k = some pv ∧
      (distributeParams queryKeys bodyKeys method params).2.lookup k = none
    else if bodyKeys.contains k then
      (distributeParams queryKeys bodyKeys method params).2.lookup k = some pv ∧
      (distributeParams queryKeys bodyKeys method params).1.lookup k = none
    else if method = .GET then
      (distributeParams queryKeys bodyKeys method params).1.lookup k = some pv ∧
      (distributeParams queryKeys bodyKeys method params).2.lookup k = none
    else
      (distributeParams queryKeys bodyKeys method params).2.lookup k = some pv ∧
      (distributeParams queryKeys bodyKeys method params).1.lookup k = none := by
  have hrv : routedValue v = some pv := by simp [routedValue, hvalid, hne]
  have hchar := distributeParams_eq queryKeys bodyKeys method params
  have hQ : goesToQuery queryKeys bodyKeys method k = true →
      (distributeParams queryKeys bodyKeys method params).1.lookup k = some pv ∧
      (distributeParams queryKeys bodyKeys method params).2.lookup k = none := by
    intro hgo
    rw [hchar]
    constructor
    · exact lookup_filterMap_some (routeQueryEntry_key _ _ _) hlookup
        (by simp [routeQueryEntry, hrv, hgo])
    · refine lookup_filterMap_none (routeBodyEntry_key _ _ _) ?_
      intro kv hmem hkeq
      rcases hr : routedValue kv.2 with _ | pw
      · simp [routeBodyEntry, hr]
      · simp [routeBodyEntry, hr, hkeq, hgo]
  have hB : goesToQuery queryKeys bodyKeys method k = false →
      (distributeParams queryKeys bodyKeys method params).2.lookup k = some pv ∧
      (distributeParams queryKeys bodyKeys method params).1.lookup k = none := by
    intro hgo
    rw [hchar]
    constructor
    · exact lookup_filterMap_some (routeBodyEntry_key _ _ _) hlookup
        (by simp [routeBodyEntry, hrv, hgo])
    · refine lookup_filterMap_none (routeQueryEntry_key _ _ _) ?_
      intro kv hmem hkeq
      rcases hr : routedValue kv.2 with _ | pw
      · simp [routeQueryEntry, hr]
      · simp [routeQueryEntry, hr, hkeq, hgo]
  split_ifs with hq hb hm
  · exact hQ (by
      have hq' : k ∈ queryKeys := by simpa using hq
      simp [goesToQuery, hq'])
  · exact hB (by
      have hq' : k ∉ queryKeys := by simpa using hq
      have hb' : k ∈ bodyKeys := by simpa using hb
      simp [goesToQuery, hq', hb'])
  · exact hQ (by
      have hq' : k ∉ queryKeys := by simpa using hq
      have hb' : k ∉ bodyKeys := by simpa using hb
      simp [goesToQuery, hq', hb', hm])
  · exact hB (by
      have hq' : k ∉ queryKeys := by simpa using hq
      have hb' : k ∉ bodyKeys := by simpa using hb
      simp [goesToQuery, hq', hb', hm])

/-- Witness for C5: the spec's concrete routing example —
`querySchema={a}`, `bodySchema={b}`, method POST, `args={a:1, b:2, c:3}` —
`c` falls back into the body bucket, and the whole result is
`queryParams={a:1}`, `bodyParams={b:2, c:3}`. -/
theorem c5_each_key_lands_in_exactly_one_bucket_witness :
    ([("a", JsValue.num 1), ("b", JsValue.num 2),
      ("c", JsValue.num 3)].lookup "c" = some (JsValue.num 3)) ∧
    asParamValue (JsValue.num 3) = some (ParamValue.num 3) ∧
    isEmptyStr (ParamValue.num 3) = false ∧
    (if ["a"].contains "c" then
      (distributeParams ["a"] ["b"] .POST
        [("a", JsValue.num 1), ("b", JsValue.num 2),
         ("c", JsValue.num 3)]).1.lookup "c" = some (ParamValue.num 3) ∧
      (distributeParams ["a"] ["b"] .POST
        [("a", JsValue.num 1), ("b", JsValue.num 2),
         ("c", JsValue.num 3)]).2.lookup "c" = none
    else if ["b"].contains "c" then
      (distributeParams ["a"] ["b"] .POST
        [("a", JsValue.num 1), ("b", JsValue.num 2),
         ("c", JsValue.num 3)]).2.lookup "c" = some (ParamValue.num 3) ∧
      (distributeParams ["a"] ["b"] .POST
        [("a", JsValue.num 1), ("b", JsValue.num 2),
         ("c", JsValue.num 3)]).1.lookup "c" = none
    else if HttpMethod.POST = HttpMethod.GET then
      (distributeParams ["a"] ["b"] .POST
        [("a", JsValue.num 1), ("b", JsValue.num 2),
         ("c", JsValue.num 3)]).1.lookup "c" = some (ParamValue.num 3) ∧
      (distributeParams ["a"] ["b"] .POST
        [("a", JsValue.num 1), ("b", JsValue.num 2),
         ("c", JsValue.num 3)]).2.lookup "c" = none
    else
      (distributeParams ["a"] ["b"] .POST
        [("a", JsValue.num 1), ("b", JsValue.num 2),
         ("c", JsValue.num 3)]).2.lookup "c" = some (ParamValue.num 3) ∧
      (distributeParams ["a"] ["b"] .POST
        [("a", JsValue.num 1), ("b", JsValue.num 2),
         ("c", JsValue.num 3)]).1.lookup "c" = none) ∧
    distributeParams ["a"] ["b"] .POST
      [("a", JsValue.num 1), ("b", JsValue.num 2), ("c", JsValue.num 3)] =
      ([("a", ParamValue.num 1)],
       [("b", ParamValue.num 2), ("c", ParamValue.num 3)]) :=
  ⟨rfl, rfl, rfl,
   c5_each_key_lands_in_exactly_one_bucket ["a"] ["b"] .POST
     [("a", JsValue.num 1), ("b", JsValue.num 2), ("c", JsValue.num 3)]
     "c" (JsValue.num 3) (ParamValue.num 3) rfl rfl rfl,
   rfl⟩

/-! ## Claim C9 -/

/-- C9. An argument whose value is the empty string, or is not a
string/number/boolean (undefined, null, object, array), is placed in neither
`queryParams` nor `bodyParams`, and therefore reaches neither the query
string nor the body of the outbound request, which are built from those
buckets alone. -/
theorem c9_invalid_values_reach_no_bucket (queryKeys bodyKeys : List String)
    (method : HttpMethod) (params : List (String × JsValue)) (k : String)
    (v : JsValue) (hnodup : (params.map Prod.fst).Nodup)
    (hlookup : params.lookup k = some v)
    (hinvalid : v = JsValue.str "" ∨ asParamValue v = none) :
    (distributeParams queryKeys bodyKeys method params).1.lookup k = none ∧
    (distributeParams queryKeys bodyKeys method params).2.lookup k = none := by
  have hrv : routedValue v = none := by
    rcases hinvalid with rfl | h
    · rfl
    · simp [routedValue, h]
  have huniq := lookup_unique_of_nodup hnodup hlookup
  have hq : ∀ kv ∈ params, kv.1 = k →
      routeQueryEntry queryKeys bodyKeys method kv = none := by
    intro kv hmem hkeq
    have hv2 : kv.2 = v := huniq kv hmem hkeq
    simp [routeQueryEntry, hv2, hrv]
  have hb : ∀ kv ∈ params, kv.1 = k →
      routeBodyEntry queryKeys bodyKeys method kv = none := by
    intro kv hmem hkeq
    have hv2 : kv.2 = v := huniq kv hmem hkeq
    simp [routeBodyEntry, hv2, hrv]
  rw [distributeParams_eq]
  exact ⟨lookup_filterMap_none (routeQueryEntry_key _ _ _) hq,
         lookup_filterMap_none (routeBodyEntry_key _ _ _) hb⟩

/-- Witness for C9: with `args={a:1, e:"", o:null}` and no declared schemas
on a POST tool, `e` lands in neither bucket (and concretely the whole result
keeps only `a`). -/
theorem c9_invalid_values_reach_no_bucket_witness :
    (([("a", JsValue.num 1), ("e", JsValue.str ""),
       ("o", JsValue.nullv)].map Prod.fst).Nodup) ∧
    ([("a", JsValue.num 1), ("e", JsValue.str ""),
      ("o", JsValue.nullv)].lookup "e" = some (JsValue.str "")) ∧
    ((distributeParams [] [] .POST
       [("a", JsValue.num 1), ("e", JsValue.str ""),
        ("o", JsValue.nullv)]).1.lookup "e" = none ∧
     (distributeParams [] [] .POST
       [("a", JsValue.num 1), ("e", JsValue.str ""),
        ("o", JsValue.nullv)]).2.lookup "e" = none) ∧
    distributeParams [] [] .POST
      [("a", JsValue.num 1), ("e", JsValue.str ""), ("o", JsValue.nullv)] =
      ([], [("a", ParamValue.num 1)]) :=
  ⟨by decide, rfl,
   c9_invalid_values_reach_no_bucket [] [] .POST
     [("a", JsValue.num 1), ("e", JsValue.str ""), ("o", JsValue.nullv)]
     "e" (JsValue.str "") (by decide) rfl (Or.inl rfl),
   rfl⟩

/-! ## Claim C6 -/

/-- C6 counterexample. The claim says an already-present `Content-Type`
value is left unchanged; but for a POST tool declaring
`Content-Type: application/xml` and a non-empty body, the assembled request
does not carry `application/xml` any more — the assignment
`headers['Content-Type'] = 'application/json'` overwrote it. -/
theorem c6_existing_content_type_not_preserved :
    (requestHeaders (buildApiRequest xmlHeaderTool
       [("b", JsValue.num 2)])).lookup "Content-Type" ≠
      some "application/xml" := by
  intro h
  rw [show (requestHeaders (buildApiRequest xmlHeaderTool
      [("b", JsValue.num 2)])).lookup "Content-Type" =
      some "application/json" from rfl] at h
  simp at h

/-- C6 as amended. For every custom API tool invocation with a non-GET
method and a non-empty `bodyParams` bucket, the request body is the JSON
encoding of `bodyParams`, and the `Content-Type` header of the request is
always `application/json` — the assignment overwrites an already-present
`Content-Type` value instead of leaving it unchanged — while every other
declared header is passed through untouched. -/
theorem c6_amended_content_type_always_json (tool : CustomTool)
    (cfg : ApiConfig) (params : List (String × JsValue))
    (hcfg : tool.apiConfig = some cfg) (hm : cfg.method ≠ .GET)
    (hbp : (distributeParams (schemaKeys tool.querySchema)
      (schemaKeys tool.inputSchema) cfg.method params).2 ≠ []) :
    requestBody (buildApiRequest tool params) =
      some (jsonStringifyFlat (distributeParams (schemaKeys tool.querySchema)
        (schemaKeys tool.inputSchema) cfg.method params).2) ∧
    (requestHeaders (buildApiRequest tool params)).lookup "Content-Type" =
      some "application/json" ∧
    ∀ h : String, h ≠ "Content-Type" →
      (requestHeaders (buildApiRequest tool params)).lookup h =
        (cfg.headers.getD []).lookup h := by
  have hlen : (distributeParams (schemaKeys tool.querySchema)
      (schemaKeys tool.inputSchema) cfg.method params).2.length > 0 :=
    List.length_pos.mpr hbp
  simp only [buildApiRequest, hcfg]
  rw [if_pos ⟨hm, hlen⟩]
  exact ⟨rfl, lookup_assocSet_self _ _ _,
         fun h hne => lookup_assocSet_other _ _ _ _ hne⟩

/-- Witness for the amended C6: a POST tool with body argument `b=2` and an
unrelated declared header `X-Api-Key` gets a JSON body, the injected
`Content-Type: application/json`, and the unrelated header untouched. -/
theorem c6_amended_content_type_always_json_witness :
    plainHeaderTool.apiConfig = some
      { url := "https://api.example.com/things", method := HttpMethod.POST,
        headers := some [("X-Api-Key", "k")] } ∧
    HttpMethod.POST ≠ HttpMethod.GET ∧
    (distributeParams (schemaKeys plainHeaderTool.querySchema)
      (schemaKeys plainHeaderTool.inputSchema) HttpMethod.POST
      [("b", JsValue.num 2)]).2 ≠ [] ∧
    requestBody (buildApiRequest plainHeaderTool [("b", JsValue.num 2)]) =
      some (jsonStringifyFlat (distributeParams
        (schemaKeys plainHeaderTool.querySchema)
        (schemaKeys plainHeaderTool.inputSchema) HttpMethod.POST
        [("b", JsValue.num 2)]).2) ∧
    (requestHeaders (buildApiRequest plainHeaderTool
      [("b", JsValue.num 2)])).lookup "Content-Type" =
      some "application/json" ∧
    (requestHeaders (buildApiRequest plainHeaderTool
      [("b", JsValue.num 2)])).lookup "X-Api-Key" =
      ((some [("X-Api-Key", "k")] : Option (List (String × String))).getD
        []).lookup "X-Api-Key" := by
  have h := c6_amended_content_type_always_json plainHeaderTool
    { url := "https://api.example.com/things", method := HttpMethod.POST,
      headers := some [("X-Api-Key", "k")] }
    [("b", JsValue.num 2)] rfl (by decide) (by decide)
  exact ⟨rfl, by decide, by decide, h.1, h.2.1,
         h.2.2 "X-Api-Key" (by decide)⟩

/-! ## Registration-order lemmas -/

theorem regCustomAux_append (cts : List CustomTool) :
    ∀ (regs : List (String × RegSource)) (registered : List String),
    ∃ extra, (registerCustomToolsAux cts regs registered).1 = regs ++ extra ∧
      ∀ p ∈ extra, p.2 = RegSource.custom := by
  induction cts with
  | nil =>
    intro regs registered
    exact ⟨[], by simp [registerCustomToolsAux], by simp⟩
  | cons t rest ih =>
    intro regs registered
    simp only [registerCustomToolsAux]
    split_ifs with h1 h2
    · exact ih regs registered
    · exact ih regs registered
    · rcases ih (regs ++ [(t.name, RegSource.custom)]) (registered ++ [t.name])
        with ⟨e, he, hc⟩
      refine ⟨(t.name, RegSource.custom) :: e, ?_, ?_⟩
      · rw [he]
        simp
      · intro p hp
        rcases List.mem_cons.mp hp with rfl | hp
        · rfl
        · exact hc p hp

theorem regCustomAux_mem (cts : List CustomTool) :
    ∀ (regs : List (String × RegSource)) (registered : List String)
      (t : CustomTool), t ∈ cts →
    (∀ n ∈ registered, n ∈ regs.map Prod.fst) →
    t.name ∈ ((registerCustomToolsAux cts regs registered).1).map Prod.fst := by
  induction cts with
  | nil =>
    intro regs registered t ht
    simp at ht
  | cons t₀ rest ih =>
    intro regs registered t ht hinv
    have hmono : ∀ (regs' : List (String × RegSource))
        (registered' : List String) (n : String), n ∈ regs'.map Prod.fst →
        n ∈ ((registerCustomToolsAux rest regs' registered').1).map Prod.fst := by
      intro regs' registered' n hn
      rcases regCustomAux_append rest regs' registered' with ⟨e, he, -⟩
      rw [he, List.map_append]
      exact List.mem_append_left _ hn
    simp only [registerCustomToolsAux]
    rcases List.mem_cons.mp ht with heq | ht'
    · subst heq
      split_ifs with h1 h2
      · exact hmono regs registered t.name (hinv t.name (by simpa using h1))
      · exact hmono regs registered t.name (by simpa using h2)
      · apply hmono
        simp
    · split_ifs with h1 h2
      · exact ih regs registered t ht' hinv
      · exact ih regs registered t ht' hinv
      · apply ih _ _ t ht'
        intro n hn
        rw [List.map_append]
        rcases List.mem_append.mp hn with hn' | hn'
        · exact List.mem_append_left _ (hinv n hn')
        · refine List.mem_append_right _ ?_
          simpa using hn'

theorem regBuiltinsAux_append (ns : List String) :
    ∀ regs : List (String × RegSource),
    ∃ extra, (registerBuiltinsAux ns regs).1 = regs ++ extra := by
  induction ns with
  | nil =>
    intro regs
    exact ⟨[], by simp [registerBuiltinsAux]⟩
  | cons n rest ih =>
    intro regs
    simp only [registerBuiltinsAux]
    split_ifs with h1
    · exact ⟨[], by simp⟩
    · rcases ih (regs ++ [(n, RegSource.builtin)]) with ⟨e, he⟩
      exact ⟨(n, RegSource.builtin) :: e, by rw [he]; simp⟩

theorem regBuiltinsAux_collision_error (ns : List String) :
    ∀ (regs : List (String × RegSource)) (n : String), n ∈ ns →
    n ∈ regs.map Prod.fst → (registerBuiltinsAux ns regs).2.isSome = true := by
  induction ns with
  | nil =>
    intro regs n hn
    simp at hn
  | cons m rest ih =>
    intro regs n hn hmem
    simp only [registerBuiltinsAux]
    split_ifs with h1
    · simp
    · rcases List.mem_cons.mp hn with heq | hn'
      · subst heq
        exact absurd hmem (by simpa using h1)
      · apply ih _ n hn'
        rw [List.map_append]
        exact List.mem_append_left _ hmem

theorem lookup_of_all_custom {l : List (String × RegSource)} {k : String}
    (hmem : k ∈ l.map Prod.fst)
    (hall : ∀ p ∈ l, p.2 = RegSource.custom) :
    l.lookup k = some RegSource.custom := by
  rcases lookup_isSome_of_mem_keys hmem with ⟨v, hv⟩
  have hc := hall (k, v) (lookup_mem hv)
  simp only at hc
  rw [hv, hc]

/-! ## Claim C1 -/

/-- C1 counterexample. A custom descriptor named `url_validator` — the name
of a builtin — is registered first, because `registerCustomTools` runs before
any builtin `server.tool` call, and so the name resolves to the custom
handler, not the builtin one; the later builtin registration is the one that
fails (the registry reports it as already registered). Builtin resolution is
not checked first and does not win the collision. -/
theorem c1_custom_tool_shadows_builtin_name :
    resolveTool (setupRegistrations [uvTool]).1 "url_validator" =
      some RegSource.custom ∧
    resolveTool (setupRegistrations [uvTool]).1 "url_validator" ≠
      some RegSource.builtin ∧
    (setupRegistrations [uvTool]).2 =
      some "Tool url_validator is already registered" := by
  decide

/-- C1 as amended. Custom tools are registered before builtins and no
builtin-first resolution check exists: for every loaded custom tool whose
name is also a builtin name, the name is owned by the custom registration
(resolution yields the custom handler), and the later builtin registration
attempt fails, aborting the builtin registration phase with an error. -/
theorem c1_amended_custom_precedes_builtin (cts : List CustomTool)
    (t : CustomTool) (ht : t ∈ cts) (hb : t.name ∈ builtinToolNames) :
    resolveTool (setupRegistrations cts).1 t.name = some RegSource.custom ∧
    (setupRegistrations cts).2.isSome = true := by
  rcases regCustomAux_append cts [] [] with ⟨extraC, hC, hCall⟩
  have hmem : t.name ∈ ((registerCustomToolsAux cts [] []).1).map Prod.fst :=
    regCustomAux_mem cts [] [] t ht (by simp)
  have hall : ∀ p ∈ (registerCustomToolsAux cts [] []).1,
      p.2 = RegSource.custom := by
    intro p hp
    rw [hC, List.nil_append] at hp
    exact hCall p hp
  have hlk : ((registerCustomToolsAux cts [] []).1).lookup t.name =
      some RegSource.custom := lookup_of_all_custom hmem hall
  constructor
  · simp only [setupRegistrations, resolveTool]
    rcases regBuiltinsAux_append builtinToolNames
      (registerCustomToolsAux cts [] []).1 with ⟨e, he⟩
    rw [he]
    exact lookup_append_left hlk
  · simp only [setupRegistrations]
    exact regBuiltinsAux_collision_error builtinToolNames _ t.name hb hmem

/-- Witness for the amended C1 at the concrete colliding tool. -/
theorem c1_amended_custom_precedes_builtin_witness :
    uvTool ∈ [uvTool] ∧ uvTool.name ∈ builtinToolNames ∧
    (resolveTool (setupRegistrations [uvTool]).1 uvTool.name =
       some RegSource.custom ∧
     (setupRegistrations [uvTool]).2.isSome = true) :=
  ⟨List.mem_singleton.mpr rfl, by decide,
   c1_amended_custom_precedes_builtin [uvTool] uvTool
     (List.mem_singleton.mpr rfl) (by decide)⟩

end McpServer
